import Mathlib

set_option maxRecDepth 5000

/-!
# Verification of the MeComPyAPI protocol stack against its specification

This file gives a shallow embedding, in Lean 4, of the protocol-relevant parts
of the MeComPyAPI Python driver:

* the value (de)serialization layer `mecom_core/mecom_var_convert.py`
  (class `MeComVarConvert`),
* the lookup-table codec `mecom_tec/lookup_table/lut_cmd.py` (class `LutCmd`)
  and its record type `mecom_tec/lookup_table/lut_record.py` (class `LutRecord`),
* the frame codec `mecom_core/mecom_frame.py` (class `MeComFrame`),
* the transaction layer `mecom_core/mecom_query_set.py` (class `MeComQuerySet`),

and proves (or refutes) the specification's claims about them.

Modelling conventions:
* Python `str` values are modelled as `List Char`.
* Python's unbounded `int` is modelled as `ℤ` (or `ℕ` where the source value is
  provably non-negative); `x << n` on Python ints is exact multiplication by
  `2 ^ n` and is modelled as such.
* File I/O is modelled by passing the list of lines of the file (each line
  keeping its trailing newline, exactly like Python's `list(f)`).
* Exceptions are modelled with `Except`/`Option`; an exception swallowed by the
  source (e.g. by a `finally: return`) is likewise swallowed by the embedding.
-/

/-! ## ByteCodec: `mecom_core/mecom_var_convert.py`

Python's `"{:02X}".format(v)` style formatting: uppercase hex digits, padded on
the left to the requested width.  With the `0` flag the pad character is `'0'`,
without it the pad character is `' '` (space).  Values needing more digits than
the width are printed in full (no truncation). -/

/-- Uppercase hexadecimal digit for `n < 16` (mirrors Python's `%X` digits). -/
def hexUpperChar (n : Nat) : Char :=
  if n < 10 then Char.ofNat (48 + n) else Char.ofNat (55 + n)

/-- Minimal-width uppercase hexadecimal rendering of `n` (Python `"{:X}".format n`),
with an explicit fuel argument to keep the recursion structural. -/
def natToHexAux : Nat → Nat → List Char
  | 0, _ => []
  | fuel + 1, n =>
    if n < 16 then [hexUpperChar n]
    else natToHexAux fuel (n / 16) ++ [hexUpperChar (n % 16)]

/-- Model of `"{:X}".format n`: minimal-width uppercase hex; `0` renders as `"0"`. -/
def natToHex (n : Nat) : List Char :=
  natToHexAux (n + 1) n

/-- Python `format` left padding: `"{:0\<w\>X}"` pads with `'0'`,
`"{:\<w\>X}"` pads with `' '`. -/
def pyFormatHex (zeroPad : Bool) (width : Nat) (v : Nat) : List Char :=
  let s := natToHex v
  List.replicate (width - s.length) (if zeroPad then '0' else ' ') ++ s

/-- Model of `MeComVarConvert.add_string`: `stream += value`. -/
def add_string (stream value : List Char) : List Char :=
  stream ++ value

/-- Model of `MeComVarConvert.add_uint4`: `stream += "{:01X}".format(value)`. -/
def add_uint4 (stream : List Char) (value : Nat) : List Char :=
  stream ++ pyFormatHex true 1 value

/-- Model of `MeComVarConvert.add_uint8`: `stream += "{:02X}".format(value)`. -/
def add_uint8 (stream : List Char) (value : Nat) : List Char :=
  stream ++ pyFormatHex true 2 value

/-- Model of `MeComVarConvert.add_uint16`: `stream += "{:04X}".format(value)`. -/
def add_uint16 (stream : List Char) (value : Nat) : List Char :=
  stream ++ pyFormatHex true 4 value

/-- Model of `MeComVarConvert.add_uint32`: `stream += "{:08X}".format(value)`. -/
def add_uint32 (stream : List Char) (value : Nat) : List Char :=
  stream ++ pyFormatHex true 8 value

/-- Model of `MeComVarConvert.add_uint64`: `stream += "{:16X}".format(value)`.
Note the format string in the source is `"{:16X}"`, *without* the `0` flag:
Python pads with spaces here, unlike the 8/16/32-bit variants. -/
def add_uint64 (stream : List Char) (value : Nat) : List Char :=
  stream ++ pyFormatHex false 16 value

/-- Model of `MeComVarConvert.add_byte_array`: one `add_uint8` per byte. -/
def add_byte_array (stream : List Char) (value : List Nat) : List Char :=
  value.foldl (fun s b => add_uint8 s b) stream

/-- Hex digit recognizer of Python's `bytes.fromhex` (both cases accepted). -/
def isHexChar (c : Char) : Bool :=
  ('0' ≤ c && c ≤ '9') || ('A' ≤ c && c ≤ 'F') || ('a' ≤ c && c ≤ 'f')

/-- Value of a hex digit character. -/
def hexCharVal (c : Char) : Nat :=
  if c ≤ '9' then c.toNat - 48
  else if c ≤ 'F' then c.toNat - 55
  else c.toNat - 87

/-- Big-endian value of a list of hex digit characters. -/
def hexListVal (l : List Char) : Nat :=
  l.foldl (fun acc c => 16 * acc + hexCharVal c) 0

/-- Model of `unpack("!...", bytes.fromhex(stream))` for an `nBytes`-byte unsigned
big-endian field: succeeds exactly when the stream is `2 * nBytes` hex
characters (otherwise `bytes.fromhex` or `unpack` raises). -/
def readHexBytes (nBytes : Nat) (l : List Char) : Option Nat :=
  if l.length = 2 * nBytes && l.all isHexChar then some (hexListVal l) else none

/-- Model of `MeComVarConvert.read_uint8`: `unpack("!B", bytes.fromhex(stream))[0]`. -/
def read_uint8 (stream : List Char) : Option Nat :=
  readHexBytes 1 stream

/-- Model of `MeComVarConvert.read_uint16`: `unpack("!H", bytes.fromhex(stream))[0]`. -/
def read_uint16 (stream : List Char) : Option Nat :=
  readHexBytes 2 stream

/-- Model of `MeComVarConvert.read_uint32`: `unpack("!I", bytes.fromhex(stream))[0]`. -/
def read_uint32 (stream : List Char) : Option Nat :=
  readHexBytes 4 stream

/-- Model of `MeComVarConvert.read_uint64`: `unpack("!Q", bytes.fromhex(stream))[0]`. -/
def read_uint64 (stream : List Char) : Option Nat :=
  readHexBytes 8 stream

/-! ## LutRecord: `mecom_tec/lookup_table/lut_record.py`

The Python class keeps, besides `instruction`, `field1` and `field2`, several
derived mirrors which its property setters keep in sync: the three bytes of
`field1`, the cached 32-bit combination `_instruction_and_field_1`, the four
bytes of `field2`, and the last value passed to the `field2_int` /
`field2_float` setters.  (`_field2_int_b0..3` and `_field2_float_b0..3` are
byte-level scratch copies whose values always equal `field2_b0..3` after a
setter ran; they are not read anywhere else and are not duplicated here.)
`field2` and `field2_int` are Python ints, hence unbounded: the `field2_int`
setter does *not* reduce its argument modulo `2^32` before storing it in
`_field2`.  The float value `_field2_float` is only ever observed through its
packed little-endian IEEE-754 float32 bytes, so the embedding stores those 32
bits (`field2_float_bits`). -/

structure LutRecord where
  instruction : Nat
  field1 : Nat
  field1b0 : Nat
  field1b1 : Nat
  field1b2 : Nat
  instruction_and_field_1 : Nat
  field2 : Int
  field2_b0 : Nat
  field2_b1 : Nat
  field2_b2 : Nat
  field2_b3 : Nat
  field2_int : Int
  field2_float_bits : Nat
  deriving DecidableEq, Repr

/-- Model of `LutRecord.__init__`: every stored field starts at zero. -/
def LutRecord.init : LutRecord :=
  ⟨0, 0, 0, 0, 0, 0, 0, 0, 0, 0, 0, 0, 0⟩

/-- The `instruction` property setter: store the value and refresh the cached
`_instruction_and_field_1 = instruction | field1b0 << 8 | field1b1 << 16 | field1b2 << 24`. -/
def LutRecord.setInstruction (r : LutRecord) (v : Nat) : LutRecord :=
  { r with
    instruction := v
    instruction_and_field_1 :=
      v ||| (r.field1b0 <<< 8) ||| (r.field1b1 <<< 16) ||| (r.field1b2 <<< 24) }

/-- The `field1` property setter: store the value, refresh the three bytes
(`v & 0xFF`, `(v & 0xFF00) >> 8`, `(v & 0xFF0000) >> 16`) and the cached
combination.  (All call sites in `lut_cmd.py` pass non-negative values.) -/
def LutRecord.setField1 (r : LutRecord) (v : Nat) : LutRecord :=
  let b0 := v &&& 0xFF
  let b1 := (v &&& 0xFF00) >>> 8
  let b2 := (v &&& 0xFF0000) >>> 16
  { r with
    field1 := v
    field1b0 := b0
    field1b1 := b1
    field1b2 := b2
    instruction_and_field_1 :=
      r.instruction ||| (b0 <<< 8) ||| (b1 <<< 16) ||| (b2 <<< 24) }

/-- Byte `j` of a Python int under Python's mask-and-shift idiom
`(v & 0xFF…00) >> 8j`; on negative ints Python's `&` acts on the two's
complement, which `Int.emod` by `2 ^ (8j+8)` reproduces exactly. -/
def pyByte (j : Nat) (v : Int) : Nat :=
  ((v % ((2 : Int) ^ (8 * j + 8))).toNat) >>> (8 * j)

/-- The `field2_int` property setter: stores the value in `_field2_int` and
`_field2` *unreduced*, and refreshes the four bytes of `_field2`. -/
def LutRecord.setField2Int (r : LutRecord) (v : Int) : LutRecord :=
  { r with
    field2_int := v
    field2 := v
    field2_b0 := pyByte 0 v
    field2_b1 := pyByte 1 v
    field2_b2 := pyByte 2 v
    field2_b3 := pyByte 3 v }

/-- The `field2_float` property setter: `pack('f', value)` produces the four
little-endian bytes of the IEEE-754 float32 bit pattern `bits`; `_field2`
becomes `b0 | b1 << 8 | b2 << 16 | b3 << 24`, i.e. `bits` itself. -/
def LutRecord.setField2Float (r : LutRecord) (bits : Nat) : LutRecord :=
  let b0 := bits &&& 0xFF
  let b1 := (bits >>> 8) &&& 0xFF
  let b2 := (bits >>> 16) &&& 0xFF
  let b3 := (bits >>> 24) &&& 0xFF
  { r with
    field2_float_bits := bits
    field2 := (b0 ||| (b1 <<< 8) ||| (b2 <<< 16) ||| (b3 <<< 24) : Nat)
    field2_b0 := b0
    field2_b1 := b1
    field2_b2 := b2
    field2_b3 := b3 }

/-- Model of `LutRecord.get_int_array`: `[self._instruction_and_field_1, self._field2]`. -/
def LutRecord.get_int_array (r : LutRecord) : List Int :=
  [(r.instruction_and_field_1 : Int), r.field2]

/-! Constants from `mecom_tec/lookup_table/lut_constants.py`. -/

def LUT_FLASH_STATUS_IDLE : Nat := 0
def LUT_FLASH_STATUS_DATA_ACCEPTED : Nat := 2
def LUT_TABLE_INFO_INSTR : Nat := 0
def LUT_TABLE_INFO_F1_START : Nat := 0
def LUT_TABLE_INFO_F1_END : Nat := 1
def LUT_SIN_RAMP_TO_INSTR : Nat := 1
def LUT_SIN_RAMP_TO_F1_FROM_ACT : Nat := 0
def LUT_SIN_RAMP_TO_F1_FROM_NOM : Nat := 1
def LUT_REPEAT_MARK_INSTR : Nat := 2
def LUT_REPEAT_MARK_F1_START : Nat := 0
def LUT_REPEAT_MARK_F1_END : Nat := 1
def LUT_LIN_RAMP_TIME_INSTR : Nat := 3
def LUT_STATUS_INSTR : Nat := 4
def LUT_STATUS_F1_DISABLE : Nat := 0
def LUT_STATUS_F1_ENABLE : Nat := 2
def LUT_WAIT_INSTR : Nat := 5
def LUT_WAIT_F1_FOREVER : Nat := 0
def LUT_WAIT_F1_TIME : Nat := 1
def LUT_SET_FLOAT_INSTR : Nat := 6
def LUT_SET_INT_INSTR : Nat := 7
def LUT_WAIT_TILL_STABLE_INSTR : Nat := 8
def LUT_CHANGE_TARGET_INST_INSTR : Nat := 9
def LUT_EOF_INSTR : Nat := 254

/-! ## The custom table CRC: `LutCmd._crc32_calc` / `_calc_crc` / `_add_crc_to_table`

Python ints are unbounded, and `_crc32_calc` never reduces modulo `2^32`: once
a bit at position ≥ 32 is set it is only ever shifted further left.  The
embedding therefore works on `ℤ` with Python's exact semantics:
`x << 1` is `x * 2`, `x ^ y` is two's-complement XOR (`Int.xor`), and
`x & 0x80000000` is two's-complement AND (`Int.land`). -/

/-- Python `crc << 1` on an unbounded int: exact multiplication by `2`. -/
def pyShl1 (x : Int) : Int := x * 2

/-- One iteration of the loop body of `LutCmd._crc32_calc`:
`crc = (crc << 1) ^ 0x04C11DB7` when bit 31 is set, else `crc = crc << 1`. -/
def crc32_round (crc : Int) : Int :=
  if Int.land crc 0x80000000 ≠ 0 then Int.xor (pyShl1 crc) 0x04C11DB7 else pyShl1 crc

/-- Model of `LutCmd._crc32_calc`: `crc ^= data`, then 32 rounds. -/
def crc32_calc (crc data : Int) : Int :=
  crc32_round^[32] (Int.xor crc data)

/-- Model of `LutCmd._calc_crc`: fold the record's `get_int_array` into the CRC,
`split_record[0]` (instruction+field1) first, then `split_record[1]` (field2). -/
def calc_crc (crc : Int) (record : LutRecord) : Int :=
  crc32_calc (crc32_calc crc (record.instruction_and_field_1 : Int)) record.field2

/-- Model of `LutCmd._add_crc_to_table`: starting from `old_crc = 0xFFFFFFFF`, records
whose instruction is not `LUT_EOF_INSTR` are folded into the running CRC; an
EOF record instead receives the running CRC in its `field2_int`. -/
def add_crc_to_table_go (oldCrc : Int) : List LutRecord → List LutRecord
  | [] => []
  | record :: rest =>
    if record.instruction ≠ LUT_EOF_INSTR then
      record :: add_crc_to_table_go (calc_crc oldCrc record) rest
    else
      record.setField2Int oldCrc :: add_crc_to_table_go oldCrc rest

/-- Model of `LutCmd._add_crc_to_table` (the list after the in-place mutation). -/
def add_crc_to_table (records : List LutRecord) : List LutRecord :=
  add_crc_to_table_go 0xFFFFFFFF records

/-- The running CRC value `_add_crc_to_table` has accumulated after a list of
records (the value it would store into an EOF record appearing next). -/
def table_crc_acc (oldCrc : Int) (records : List LutRecord) : Int :=
  records.foldl
    (fun crc record =>
      if record.instruction ≠ LUT_EOF_INSTR then calc_crc crc record else crc)
    oldCrc

/-- Model of `LutCmd._split_list`: chunks of `max_list_size` records, in order. -/
def split_list_go (maxSize : Nat) : Nat → List LutRecord → List (List LutRecord)
  | _, [] => []
  | 0, l => [l]
  | fuel + 1, l => l.take maxSize :: split_list_go maxSize fuel (l.drop maxSize)

/-- Model of `LutCmd._split_list` with `max_list_size > 0` (callers pass 32). -/
def split_list (l : List LutRecord) (maxSize : Nat) : List (List LutRecord) :=
  split_list_go maxSize l.length l

/-! ## CSV parsing: `LutCmd._parse_lut_into_list` / `_enumerate_lut`

`_enumerate_lut` wraps its whole branch tree in
`try: … except LutException: raise … finally: return record`.
In Python a `return` inside `finally` *discards any in-flight exception*: both
the deliberate `raise LutException(...)` calls and incidental `ValueError`s
from `int(...)`/`float(...)` are swallowed, and the record built so far is
returned.  The embedding below therefore returns the partially-built record at
every would-be exception point. -/

/-- Whitespace stripped by Python's `int(str)` / `float(str)`. -/
def isPySpace (c : Char) : Bool :=
  c = ' ' || c = '\t' || c = '\n' || c = '\x0d' || c = '\x0b' || c = '\x0c'

/-- Strip leading and trailing whitespace (Python `str.strip()`). -/
def pyStrip (cs : List Char) : List Char :=
  ((cs.dropWhile isPySpace).reverse.dropWhile isPySpace).reverse

/-- Base-10 value of a digit string. -/
def natDigitsVal (cs : List Char) : Nat :=
  cs.foldl (fun acc c => 10 * acc + (c.toNat - 48)) 0

/-- Value of a non-empty all-decimal-digit string. -/
def decDigitsVal : List Char → Option Nat
  | [] => none
  | cs => if cs.all (fun c => '0' ≤ c && c ≤ '9')
            then some (natDigitsVal cs)
            else none

/-- Python `int(s)` for decimal strings: optional surrounding whitespace,
optional sign, at least one digit; anything else raises `ValueError` (`none`).
(Digit-group underscores, accepted by Python, are not modelled; no input in
this code base uses them.) -/
def pyParseInt (s : List Char) : Option Int :=
  match pyStrip s with
  | '-' :: rest => (decDigitsVal rest).map (fun n => -(n : Int))
  | '+' :: rest => (decDigitsVal rest).map (fun n => (n : Int))
  | cs => (decDigitsVal cs).map (fun n => (n : Int))

/-- The unsigned body of a Python float literal: `digits`, `digits.`,
`digits.digits` or `.digits`, with value `intpart + frac / 10 ^ fraclen`,
assembled as the single rational `(intpart * 10 ^ fraclen + frac) / 10 ^ fraclen`.
(Exponents, `inf` and `nan`, accepted by Python's `float`, are not modelled;
no input in this code base uses them.) -/
def pyFloatBody (cs : List Char) : Option ℚ :=
  let ip := cs.takeWhile (fun c => '0' ≤ c && c ≤ '9')
  let rest := cs.dropWhile (fun c => '0' ≤ c && c ≤ '9')
  match rest with
  | [] => (decDigitsVal ip).map (fun n => mkRat n 1)
  | '.' :: fp =>
    if ip.isEmpty && fp.isEmpty then none
    else if fp.all (fun c => '0' ≤ c && c ≤ '9') then
      some (mkRat (natDigitsVal ip * 10 ^ fp.length + natDigitsVal fp) (10 ^ fp.length))
    else none
  | _ => none

/-- Python `float(s)` restricted to plain decimal literals (see `pyFloatBody`). -/
def pyParseFloat (s : List Char) : Option ℚ :=
  match pyStrip s with
  | '-' :: rest => (pyFloatBody rest).map (fun q => -q)
  | '+' :: rest => pyFloatBody rest
  | cs => pyFloatBody cs

/-- Variant of `Nat.log2` with explicit fuel, keeping the recursion structural (the
kernel cannot reduce the well-founded `Nat.log2` on concrete inputs). -/
def natLog2Aux : Nat → Nat → Nat
  | 0, _ => 0
  | fuel + 1, n => if n ≥ 2 then natLog2Aux fuel (n / 2) + 1 else 0

/-- Computes `⌊log₂ n⌋` (0 for `n = 0`), structurally. -/
def natLog2 (n : Nat) : Nat :=
  natLog2Aux n n

/-- The IEEE-754 binary32 bit pattern of a rational, defined exactly on the
rationals that are representable as a float32 (zero, subnormals, normals); on
other rationals it returns `none`.  This models `struct.pack('f', q)` for
exactly-representable values — every float literal handled by the claims (and
by the sample tables) is exactly representable, so no rounding is modelled. -/
def float32BitsOfRat (q : ℚ) : Option Nat :=
  if q = 0 then some 0
  else
    let sgn : Nat := if q < 0 then 1 else 0
    let n := q.num.natAbs
    let d := q.den
    if (2 ^ 149) % d ≠ 0 then none
    else
      let m := n * ((2 ^ 149) / d)
      let L := natLog2 m
      if L ≤ 22 then some ((sgn <<< 31) ||| m)
      else if L ≤ 276 then
        if m % (2 ^ (L - 23)) = 0 then
          some ((sgn <<< 31) ||| ((L - 22) <<< 23) ||| ((m >>> (L - 23)) - 2 ^ 23))
        else none
      else none

/-- Model of `struct.pack('f', ·)` composed with `float(s)`:`none` models a `ValueError`
from `float` (or a float32 value outside the exactly-representable fragment,
which no claim exercises). -/
def pyFloat32Bits (s : List Char) : Option Nat :=
  (pyParseFloat s).bind float32BitsOfRat

/-- Python `line.split(";")`: split on every semicolon, keeping empty pieces. -/
def splitSemiAux : List Char → List Char → List (List Char)
  | [], acc => [acc.reverse]
  | c :: rest, acc =>
    if c = ';' then acc.reverse :: splitSemiAux rest []
    else splitSemiAux rest (c :: acc)

/-- Python `line.split(";")`. -/
def splitSemi (l : List Char) : List (List Char) :=
  splitSemiAux l []

/-- The branch tree of `_enumerate_lut` on the three column values, with every
would-be exception point returning the record built so far (see the section
comment: the `finally: return record` swallows all exceptions, including the
`raise LutException` for unknown instructions / Field-1 tokens and
`ValueError`s from `int`/`float`). -/
def enumerate_lut_fields (instructionCol field1 field2 : List Char) : LutRecord :=
  let record := LutRecord.init
  if instructionCol = "TABLE_INFO".toList then
    let record := record.setInstruction LUT_TABLE_INFO_INSTR
    if field1 = "START".toList then
      let record := record.setField1 LUT_TABLE_INFO_F1_START
      match pyParseInt field2 with
      | some v => record.setField2Int v
      | none => record
    else if field1 = "END".toList then
      let record := record.setField1 LUT_TABLE_INFO_F1_END
      match pyParseInt field2 with
      | some v => record.setField2Int v
      | none => record
    else record
  else if instructionCol = "SIN_RAMP_TO".toList then
    let record := record.setInstruction LUT_SIN_RAMP_TO_INSTR
    if field1 = "FROM_ACT".toList then
      let record := record.setField1 LUT_SIN_RAMP_TO_F1_FROM_ACT
      match pyFloat32Bits field2 with
      | some bits => record.setField2Float bits
      | none => record
    else if field1 = "FROM_NOM".toList then
      let record := record.setField1 LUT_SIN_RAMP_TO_F1_FROM_NOM
      match pyFloat32Bits field2 with
      | some bits => record.setField2Float bits
      | none => record
    else record
  else if instructionCol = "REPEAT_MARK".toList then
    let record := record.setInstruction LUT_REPEAT_MARK_INSTR
    if field1 = "START".toList then record.setField1 LUT_REPEAT_MARK_F1_START
    else if field1 = "END".toList then record.setField1 LUT_REPEAT_MARK_F1_END
    else record
  else if instructionCol = "LIN_RAMP_TIME".toList then
    let record := record.setInstruction LUT_LIN_RAMP_TIME_INSTR
    match pyParseInt field1 with
    | none => record
    | some f1_temp =>
      let record :=
        if 10 ≥ f1_temp ∧ f1_temp ≥ 16777216 then record.setField1 f1_temp.toNat
        else record
      match pyFloat32Bits field2 with
      | some bits => record.setField2Float bits
      | none => record
  else if instructionCol = "STATUS".toList then
    let record := record.setInstruction LUT_STATUS_INSTR
    if field1 = "DISABLE".toList then record.setField1 LUT_STATUS_F1_DISABLE
    else if field1 = "ENABLE".toList then record.setField1 LUT_STATUS_F1_ENABLE
    else record
  else if instructionCol = "WAIT".toList then
    let record := record.setInstruction LUT_WAIT_INSTR
    if field1 = "FOREVER".toList then record.setField1 LUT_WAIT_F1_FOREVER
    else if field1 = "TIME".toList then
      let record := record.setField1 LUT_WAIT_F1_TIME
      match pyParseInt field2 with
      | none => record
      | some f2_temp =>
        if f2_temp ≥ 0 then record.setField2Int f2_temp else record
    else record
  else if instructionCol = "SET_FLOAT".toList then
    let record := record.setInstruction LUT_SET_FLOAT_INSTR
    match pyParseInt field1 with
    | none => record
    | some f1temp_1 =>
      let record :=
        if 0 ≤ f1temp_1 ∧ f1temp_1 ≤ 16777216 then record.setField1 f1temp_1.toNat
        else record
      match pyParseInt field2 with
      | some v => record.setField2Int v
      | none => record
  else if instructionCol = "SET_INT".toList then
    let record := record.setInstruction LUT_SET_INT_INSTR
    match pyParseInt field1 with
    | none => record
    | some f1temp_2 =>
      let record :=
        if 0 ≤ f1temp_2 ∧ f1temp_2 ≤ 16777216 then record.setField1 f1temp_2.toNat
        else record
      match pyParseInt field2 with
      | some v => record.setField2Int v
      | none => record
  else if instructionCol = "TILL_TEMP_STABLE".toList then
    record.setInstruction LUT_WAIT_TILL_STABLE_INSTR
  else if instructionCol = "SET_TARGET_INST".toList then
    let record := record.setInstruction LUT_CHANGE_TARGET_INST_INSTR
    match pyParseInt field2 with
    | some v => record.setField2Int v
    | none => record
  else if instructionCol = "EOF".toList then
    record.setInstruction LUT_EOF_INSTR
  else record

/-- Exceptions that can escape the lookup-table CSV parser.  Only the header
check's `LutException` and the `IndexError` from `buffer[1]`/`buffer[2]` on a
row with fewer than three columns can actually propagate (everything raised
inside `_enumerate_lut`'s `try` is swallowed by its `finally: return`). -/
inductive LutParseError where
  | titleError
  | indexError
  deriving DecidableEq, Repr

/-- Model of `LutCmd._enumerate_lut`: split the line on `;`, read the three columns
(an `IndexError` escapes if there are fewer than three), then run the branch
tree.  The function never raises for *recognized-shape* rows: the
`finally: return record` swallows every exception from the branch tree. -/
def enumerate_lut (line : List Char) : Except LutParseError LutRecord :=
  match splitSemi line with
  | instructionCol :: field1 :: field2 :: _ =>
    .ok (enumerate_lut_fields instructionCol field1 field2)
  | _ => .error .indexError

/-- Does `pat` occur at the head of `l`? (used to model Python's `in`). -/
def leadsWith : List Char → List Char → Bool
  | [], _ => true
  | _ :: _, [] => false
  | p :: ps, c :: cs => p = c && leadsWith ps cs

/-- Python's substring test `pat in s`. -/
def containsSub (s pat : List Char) : Bool :=
  (List.range (s.length + 1)).any (fun i => leadsWith pat (s.drop i))

/-- The literal CSV header `'Instruction;Field 1;Field 2'`. -/
def lutHeader : List Char := "Instruction;Field 1;Field 2".toList

/-- The row loop of `_parse_lut_into_list`: each data line is fed to
`_enumerate_lut` and the record appended, in file order; the first escaping
exception aborts the parse. -/
def parse_lut_rows : List (List Char) → Except LutParseError (List LutRecord)
  | [] => .ok []
  | line :: rest =>
    match enumerate_lut line with
    | .ok record => (parse_lut_rows rest).map (fun l => record :: l)
    | .error e => .error e

/-- Model of `LutCmd._parse_lut_into_list` (the `src/mecompyapi` variant cited by the
claims): the first line must *contain* the header (`"…" not in lines[0]`
raises `LutException`), and every following line — including a literal `EOF`
row, for which this variant has no early `break` — is fed to `_enumerate_lut`
and appended. -/
def parse_lut_into_list (lines : List (List Char)) : Except LutParseError (List LutRecord) :=
  match lines with
  | [] => .ok []
  | first :: rest =>
    if ¬ containsSub first lutHeader then .error .titleError
    else parse_lut_rows rest

/-- Equality of `Except` results is decidable (used to evaluate the embedding
on concrete inputs). -/
instance {ε α : Type} [DecidableEq ε] [DecidableEq α] : DecidableEq (Except ε α) := fun x y =>
  match x, y with
  | .ok a, .ok b =>
    if h : a = b then .isTrue (by rw [h]) else .isFalse (fun hc => h (Except.ok.inj hc))
  | .error e, .error f =>
    if h : e = f then .isTrue (by rw [h]) else .isFalse (fun hc => h (Except.error.inj hc))
  | .ok _, .error _ => .isFalse (fun hc => Except.noConfusion hc)
  | .error _, .ok _ => .isFalse (fun hc => Except.noConfusion hc)

/-! ## Frame codec: `mecom_core/mecom_frame.py`

`MeComPacket.__init__(control=None, address=1)` zero-initializes the sequence
number and payload and marks the packet `EMPTY`.  `MeComFrame._decode_frame`
treats an 11-character line as a (potential) ACK — comparing the embedded CRC
against the cached `last_crc` of the last *sent* frame, not a recomputed one —
and any other length as a DATA frame whose CRC is recomputed over everything
but the last four characters.  The CRC-CCITT itself comes from the external
`PyCRC` package, so the embedding takes it as a parameter `calcCrc`. -/

inductive ERcvType where
  | EMPTY
  | ACK
  | DATA
  deriving DecidableEq, Repr

structure MeComPacket where
  control : Option Char
  address : Option Nat
  sequence_number : Nat
  payload : List Char
  receive_type : ERcvType
  deriving DecidableEq, Repr

/-- Model of `MeComPacket(control=c, address=a)`. -/
def MeComPacket.mk' (control : Option Char) (address : Option Nat) : MeComPacket :=
  { control := control
    address := address
    sequence_number := 0
    payload := []
    receive_type := .EMPTY }

/-- The packet `receive_frame_or_timeout` passes to `_decode_frame`:
`MeComPacket()` (default `address=1`) with `receive_type = EMPTY`. -/
def emptyRxPacket : MeComPacket :=
  MeComPacket.mk' none (some 1)

/-- Python slice `s[a:b]` for non-negative bounds (lenient at both ends). -/
def pySlice (l : List Char) (a b : Nat) : List Char :=
  (l.take b).drop a

/-- Errors that can escape `_decode_frame`: the explicit
`WrongChecksumException`, or a `ValueError`/`struct.error` from hex parsing of
a malformed field. -/
inductive FrameError where
  | wrongChecksum
  | valueError
  deriving DecidableEq, Repr

/-- Model of `int(s, 16)` as used on the four trailing CRC characters of a DATA frame:
optional surrounding whitespace and sign are accepted by Python; the uses in
this code base only ever see plain hex digits, which is the fragment modelled
(`none` = `ValueError`). -/
def pyParseHex (s : List Char) : Option Nat :=
  match pyStrip s with
  | [] => none
  | cs => if cs.all isHexChar then some (hexListVal cs) else none

/-- Model of `MeComFrame._decode_frame`.  `calcCrc` is the external
`CRCCCITT().calculate`; `lastCrc` is the cached `self.last_crc`. -/
def decode_frame (calcCrc : List Char → Nat) (lastCrc : Nat) (rxFrame : MeComPacket)
    (rxStream : List Char) : Except FrameError MeComPacket :=
  if rxStream.length = 11 then
    match read_uint16 (pySlice rxStream 7 11) with
    | none => .error .valueError
    | some rcvCrc =>
      if rcvCrc = lastCrc then
        match read_uint8 (pySlice rxStream 1 3), read_uint16 (pySlice rxStream 3 7) with
        | some addr, some seq =>
          .ok { rxFrame with
                address := some addr
                sequence_number := seq
                receive_type := .ACK }
        | _, _ => .error .valueError
      else
        .ok rxFrame
  else
    match pyParseHex (rxStream.drop (rxStream.length - 4)) with
    | none => .error .valueError
    | some rcvCrc =>
      let calcCrcVal := calcCrc (rxStream.take (rxStream.length - 4))
      if calcCrcVal = rcvCrc then
        match read_uint8 (pySlice rxStream 1 3), read_uint16 (pySlice rxStream 3 7) with
        | some addr, some seq =>
          .ok { rxFrame with
                address := some addr
                sequence_number := seq
                payload := (rxStream.take (rxStream.length - 4)).drop 7
                receive_type := .DATA }
        | _, _ => .error .valueError
      else
        .error .wrongChecksum

/-! ## Transaction layer: `mecom_core/mecom_query_set.py`

`MeComQuerySet` holds the sequence counter, the readiness flag and the default
device address.  `local_query`/`local_set` substitute the default address for
`None`, increment the sequence counter *once*, then try up to three sends; the
response (or transport exception) of each receive attempt is modelled by an
oracle `recv : ℕ → RecvOutcome` giving the outcome of the n-th receive.
Physical sends are recorded (in order) as the list of transmitted packets;
`send_frame` itself is modelled as always succeeding (a send-side transport
exception would land in the same generic `except Exception` arm as
`RecvOutcome.otherExc`, so no claim here depends on it). -/

structure MeComQuerySet where
  sequence_number : Nat
  is_ready : Bool
  version_is_okay : Bool
  default_device_address : Nat
  deriving DecidableEq, Repr

/-- Model of `MeComQuerySet.check_if_connected`: the body is literally `return True`. -/
def check_if_connected (_ : MeComQuerySet) : Bool :=
  true

/-- Outcome of one `receive_frame_or_timeout` call, as seen by the
`try`/`except` arms of `local_query`/`local_set`: a received packet, a
`MeComPhyTimeoutException`, a `ServerException`, or any other exception. -/
inductive RecvOutcome where
  | frame (p : MeComPacket)
  | timeout
  | serverExc
  | otherExc

/-- The exceptions `query`/`set` can propagate:
`GeneralException` (communication failure), `ServerException`, and
`NotConnectedException`. -/
inductive TxError where
  | general (msg : List Char)
  | server
  | notConnected
  deriving DecidableEq, Repr

/-- The dead-code tail of `local_query` after the `while` loop ("check last
error"): reached only with the initial empty `rx_frame`. -/
def local_query_post (rxFrame : MeComPacket) (seqNum : Nat) (txAddress : Option Nat) :
    Except TxError MeComPacket :=
  if rxFrame.receive_type ≠ .DATA then
    .error (.general ("Query failed : Wrong Type of package received.".toList))
  else if rxFrame.sequence_number ≠ seqNum then
    .error (.general ("Query failed : Wrong Sequence Number received.".toList))
  else if rxFrame.address ≠ txAddress then
    .error (.general ("Query failed : Wrong Address received.".toList))
  else
    .error (.general ("Query failed : Unknown error".toList))

/-- The dead-code tail of `local_set` after the `while` loop (no
receive-type check, unlike `local_query`). -/
def local_set_post (rxFrame : MeComPacket) (seqNum : Nat) (txAddress : Option Nat) :
    Except TxError MeComPacket :=
  if rxFrame.sequence_number ≠ seqNum then
    .error (.general ("Set failed: Wrong Sequence Number received.".toList))
  else if rxFrame.address ≠ txAddress then
    .error (.general ("Set failed: Wrong Address received.".toList))
  else
    .error (.general ("Set failed: Unknown error".toList))

/-- The shared `while trials_left > 0` loop of `local_query`/`local_set`.
Per iteration: decrement `trials_left`, stamp the (already incremented)
sequence number into the frame, send it; on address 255 return the (empty)
`rx_frame` without receiving; otherwise receive — a packet returns
immediately, a timeout is swallowed unless `trials_left` reached 0 (then the
timeout `GeneralException`), a `ServerException` re-raises, and any other
exception becomes the generic `GeneralException`.  `post` is the dead code
after the loop.  Returns the result together with the sent packets. -/
def transact_loop (recv : Nat → RecvOutcome) (seqNum : Nat) (tx rxFrame : MeComPacket)
    (timeoutErr otherErr : TxError) (post : MeComPacket → Except TxError MeComPacket) :
    Nat → Nat → List MeComPacket → Except TxError MeComPacket × List MeComPacket
  | 0, _, sends => (post rxFrame, sends)
  | trialsLeft + 1, attempt, sends =>
    let tx := { tx with sequence_number := seqNum }
    let sends := sends ++ [tx]
    if tx.address = some 255 then (.ok rxFrame, sends)
    else
      match recv attempt with
      | .frame p => (.ok p, sends)
      | .timeout =>
        if trialsLeft = 0 then (.error timeoutErr, sends)
        else transact_loop recv seqNum tx rxFrame timeoutErr otherErr post
               trialsLeft (attempt + 1) sends
      | .serverExc => (.error .server, sends)
      | .otherExc => (.error otherErr, sends)

/-- Model of `MeComQuerySet.local_query`. -/
def local_query (st : MeComQuerySet) (recv : Nat → RecvOutcome) (txFrame : MeComPacket) :
    Except TxError MeComPacket × MeComQuerySet × List MeComPacket :=
  let txFrame :=
    { txFrame with address := some (txFrame.address.getD st.default_device_address) }
  let seqNum := st.sequence_number + 1
  let out :=
    transact_loop recv seqNum txFrame emptyRxPacket
      (.general ("Query failed: Timeout!".toList))
      (.general ("Query failed : inner exception".toList))
      (fun rx => local_query_post rx seqNum txFrame.address)
      3 0 []
  (out.1, { st with sequence_number := seqNum }, out.2)

/-- Model of `MeComQuerySet.local_set`. -/
def local_set (st : MeComQuerySet) (recv : Nat → RecvOutcome) (txFrame : MeComPacket) :
    Except TxError MeComPacket × MeComQuerySet × List MeComPacket :=
  let txFrame :=
    { txFrame with address := some (txFrame.address.getD st.default_device_address) }
  let seqNum := st.sequence_number + 1
  let out :=
    transact_loop recv seqNum txFrame emptyRxPacket
      (.general ("Set failed: Timeout!".toList))
      (.general ("Set failed : inner exception".toList))
      (fun rx => local_set_post rx seqNum txFrame.address)
      3 0 []
  (out.1, { st with sequence_number := seqNum }, out.2)

/-- Model of `MeComQuerySet.query`: calls `check_if_connected` (always `True`), runs
`local_query`; a `ServerException` re-raises unchanged, a `GeneralException`
sets `is_ready = False` and re-raises. -/
def query (st : MeComQuerySet) (recv : Nat → RecvOutcome) (txFrame : MeComPacket) :
    Except TxError MeComPacket × MeComQuerySet × List MeComPacket :=
  let _connected := check_if_connected st
  let out := local_query st recv txFrame
  match out.1 with
  | .error (.general msg) =>
    (.error (.general msg), { out.2.1 with is_ready := false }, out.2.2)
  | r => (r, out.2.1, out.2.2)

/-- Model of `MeComQuerySet.set`: same wrapper as `query` around `local_set`. -/
def MeComQuerySet.set (st : MeComQuerySet) (recv : Nat → RecvOutcome) (txFrame : MeComPacket) :
    Except TxError MeComPacket × MeComQuerySet × List MeComPacket :=
  let _connected := check_if_connected st
  let out := local_set st recv txFrame
  match out.1 with
  | .error (.general msg) =>
    (.error (.general msg), { out.2.1 with is_ready := false }, out.2.2)
  | r => (r, out.2.1, out.2.2)

/-! ## Spec-side table CRC (from the specification's words)

For the refinement claim about `compute_table_crc` a second definition is
given, following the specification text: CRC state is a `u32`
(all arithmetic reduced modulo `2^32`), initialized to `0xFFFFFFFF`; for every
non-EOF record, the 32-bit word `instruction | field1b0<<8 | field1b1<<16 |
field1b2<<24` is XOR-folded in first, then the `field2` word, each fold being
32 rounds of "shift left; XOR `0x04C11DB7` if the MSB was set". -/

/-- One round of the spec's bit-serial CRC on a `u32` state. -/
def spec_crc32_round (crc : Nat) : Nat :=
  if crc.testBit 31 then ((crc <<< 1) % 2 ^ 32) ^^^ 0x04C11DB7
  else (crc <<< 1) % 2 ^ 32

/-- The spec's XOR-fold of one 32-bit input word into the CRC state. -/
def spec_crc32_fold (crc word : Nat) : Nat :=
  spec_crc32_round^[32] ((crc ^^^ word) % 2 ^ 32)

/-- The spec's "instruction+field1" 32-bit word of a record. -/
def spec_record_word1 (r : LutRecord) : Nat :=
  r.instruction ||| (r.field1b0 <<< 8) ||| (r.field1b1 <<< 16) ||| (r.field1b2 <<< 24)

/-- Definition of `compute_table_crc` as the specification describes it: a `u32`. -/
def spec_table_crc (records : List LutRecord) : Nat :=
  records.foldl
    (fun crc r =>
      if r.instruction ≠ LUT_EOF_INSTR then
        spec_crc32_fold (spec_crc32_fold crc (spec_record_word1 r)) r.field2.toNat
      else crc)
    0xFFFFFFFF

/-! Natural-number mirror of the code's (unmasked) CRC, used to relate the
`ℤ`-valued embedding to the spec's `u32` algorithm. -/

/-- Version of `crc32_round` restricted to non-negative states. -/
def crc32_roundN (crc : Nat) : Nat :=
  if crc.testBit 31 then (crc * 2) ^^^ 0x04C11DB7 else crc * 2

/-- Version of `crc32_calc` restricted to non-negative arguments. -/
def crc32_calcN (crc data : Nat) : Nat :=
  crc32_roundN^[32] (crc ^^^ data)

/-- Version of `table_crc_acc` restricted to records with non-negative `field2`. -/
def table_crc_accN (oldCrc : Nat) (records : List LutRecord) : Nat :=
  records.foldl
    (fun crc r =>
      if r.instruction ≠ LUT_EOF_INSTR then
        crc32_calcN (crc32_calcN crc r.instruction_and_field_1) r.field2.toNat
      else crc)
    oldCrc

/-- Generalization of `spec_table_crc` with an explicit starting state (for induction). -/
def spec_table_crc_from (c : Nat) (records : List LutRecord) : Nat :=
  records.foldl
    (fun crc r =>
      if r.instruction ≠ LUT_EOF_INSTR then
        spec_crc32_fold (spec_crc32_fold crc (spec_record_word1 r)) r.field2.toNat
      else crc)
    c

/-! ## Concrete inputs used by the claims -/

/-- The specification's four-row sample CSV, as the line list Python's
`list(f)` produces (each line keeps its `\n`). -/
def lutSampleLines : List (List Char) :=
  ["Instruction;Field 1;Field 2\n".toList,
   "TABLE_INFO;START;0\n".toList,
   "SIN_RAMP_TO;FROM_ACT;25.0\n".toList,
   "TABLE_INFO;END;0\n".toList,
   "EOF;0;0\n".toList]

/-- The record parsed from `TABLE_INFO;START;0` (everything zero). -/
def lutSampleRecord1 : LutRecord := ⟨0, 0, 0, 0, 0, 0, 0, 0, 0, 0, 0, 0, 0⟩

/-- The record parsed from `SIN_RAMP_TO;FROM_ACT;25.0`:
`field2 = 0x41C80000 = 1103626240`, the float32 bit pattern of `25.0`. -/
def lutSampleRecord2 : LutRecord := ⟨1, 0, 0, 0, 0, 1, 1103626240, 0, 0, 200, 65, 0, 1103626240⟩

/-- The record parsed from `TABLE_INFO;END;0` (`instruction+field1` word 256). -/
def lutSampleRecord3 : LutRecord := ⟨0, 1, 1, 0, 0, 256, 0, 0, 0, 0, 0, 0, 0⟩

/-- The record parsed from the `EOF;0;0` row. -/
def lutSampleRecord4 : LutRecord := ⟨254, 0, 0, 0, 0, 254, 0, 0, 0, 0, 0, 0, 0⟩

/-- The (unmasked) value `_add_crc_to_table` stores into the sample table's
EOF record: about `2^224`, far outside `u32` range. -/
def lutSampleCrc : Nat :=
  26571197356451551548773643990939132007304939309510988522872480870554

/-- A transaction-layer state for evaluating `query` on concrete inputs. -/
def sampleQuerySet : MeComQuerySet := ⟨5, true, false, 1⟩

/-- The always-timing-out transport oracle. -/
def timeoutRecv : Nat → RecvOutcome := fun _ => .timeout

/-- A concrete non-broadcast request frame. -/
def sampleTxFrame : MeComPacket := MeComPacket.mk' (some '#') (some 2)

/-- An 11-character ACK-shaped line whose trailing CRC field is `0x0000`. -/
def sampleAckStream : List Char := "#0100010000".toList

lemma int_land_natCast (a b : Nat) : Int.land (a : ℤ) (b : ℤ) = ((a &&& b : ℕ) : ℤ) := rfl

lemma int_xor_natCast (a b : Nat) : Int.xor (a : ℤ) (b : ℤ) = ((a ^^^ b : ℕ) : ℤ) := rfl

lemma nat_and_two_pow_31 (c : Nat) : (c &&& 0x80000000) ≠ 0 ↔ c.testBit 31 = true := by
  have h := Nat.and_two_pow c 31
  norm_num at h
  rw [h]
  cases hb : c.testBit 31 <;> simp

/-- The code's CRC round agrees with its ℕ mirror on non-negative states. -/
lemma crc32_round_natCast (c : Nat) : crc32_round (c : ℤ) = ((crc32_roundN c : ℕ) : ℤ) := by
  unfold crc32_round crc32_roundN pyShl1
  have hland : Int.land (c : ℤ) 0x80000000 = ((c &&& 0x80000000 : ℕ) : ℤ) :=
    int_land_natCast c 0x80000000
  by_cases hb : c.testBit 31 = true
  · have hne : (c &&& 0x80000000) ≠ 0 := (nat_and_two_pow_31 c).mpr hb
    rw [hland]
    simp only [hb, if_true, ne_eq, Int.natCast_eq_zero, hne, not_false_eq_true, if_true]
    have : ((c : ℤ) * 2) = ((c * 2 : ℕ) : ℤ) := by push_cast; ring
    rw [this]
    have h7 : (0x04C11DB7 : ℤ) = ((0x04C11DB7 : ℕ) : ℤ) := by norm_num
    rw [h7, int_xor_natCast]
  · have hb' : c.testBit 31 = false := by simpa using hb
    have heq : (c &&& 0x80000000) = 0 := by
      by_contra hne
      exact hb ((nat_and_two_pow_31 c).mp hne)
    rw [hland]
    simp only [hb', if_false, heq, ne_eq, Nat.cast_zero, not_true_eq_false, if_false]
    push_cast
    ring

lemma crc32_round_iter_natCast (k : Nat) (c : Nat) :
    crc32_round^[k] (c : ℤ) = ((crc32_roundN^[k] c : ℕ) : ℤ) := by
  induction k generalizing c with
  | zero => simp
  | succ k ih =>
    rw [Function.iterate_succ_apply, Function.iterate_succ_apply,
      crc32_round_natCast, ih]

/-- The code's `_crc32_calc` agrees with its ℕ mirror on non-negative inputs. -/
lemma crc32_calc_natCast (c d : Nat) :
    crc32_calc (c : ℤ) (d : ℤ) = ((crc32_calcN c d : ℕ) : ℤ) := by
  unfold crc32_calc crc32_calcN
  rw [int_xor_natCast, crc32_round_iter_natCast]

/-- Identity `(a ^^^ b) % 2^n = (a % 2^n) ^^^ (b % 2^n)`. -/
lemma xor_mod_two_pow (a b n : Nat) :
    (a ^^^ b) % 2 ^ n = (a % 2 ^ n) ^^^ (b % 2 ^ n) := by
  apply Nat.eq_of_testBit_eq
  intro i
  simp only [Nat.testBit_mod_two_pow, Nat.testBit_xor]
  by_cases h : i < n <;> simp [h]

/-- One unmasked round agrees with one masked (spec) round modulo `2^32`. -/
lemma crc32_roundN_mod (c : Nat) :
    crc32_roundN c % 2 ^ 32 = spec_crc32_round (c % 2 ^ 32) := by
  unfold crc32_roundN spec_crc32_round
  have hbit : (c % 2 ^ 32).testBit 31 = c.testBit 31 := by
    rw [Nat.testBit_mod_two_pow]
    simp
  have hshift : ((c % 2 ^ 32) <<< 1) % 2 ^ 32 = (c * 2) % 2 ^ 32 := by
    rw [Nat.shiftLeft_eq, pow_one]
    exact (Nat.mod_modEq c (2 ^ 32)).mul_right 2
  rw [hbit]
  by_cases hb : c.testBit 31 = true
  · rw [hb]
    simp only [eq_self_iff_true, if_true]
    calc ((c * 2) ^^^ 0x04C11DB7) % 2 ^ 32
        = ((c * 2) % 2 ^ 32) ^^^ (0x04C11DB7 % 2 ^ 32) := xor_mod_two_pow _ _ _
      _ = ((c * 2) % 2 ^ 32) ^^^ 0x04C11DB7 := by norm_num
      _ = (((c % 2 ^ 32) <<< 1) % 2 ^ 32) ^^^ 0x04C11DB7 := by rw [hshift]
  · have hb' : c.testBit 31 = false := by simpa using hb
    rw [hb']
    simp only [Bool.false_eq_true, if_false]
    exact hshift.symm

lemma crc32_roundN_iter_mod (k : Nat) (c : Nat) :
    crc32_roundN^[k] c % 2 ^ 32 = spec_crc32_round^[k] (c % 2 ^ 32) := by
  induction k generalizing c with
  | zero => simp
  | succ k ih =>
    rw [Function.iterate_succ_apply, Function.iterate_succ_apply, ih,
      crc32_roundN_mod]

/-- The unmasked fold of one word agrees with the spec's `u32` fold modulo `2^32`. -/
lemma crc32_calcN_mod (c d : Nat) :
    crc32_calcN c d % 2 ^ 32 = spec_crc32_fold c d := by
  unfold crc32_calcN spec_crc32_fold
  rw [crc32_roundN_iter_mod]

/-- The spec's fold only depends on the state modulo `2^32`. -/
lemma spec_crc32_fold_mod (c d : Nat) :
    spec_crc32_fold (c % 2 ^ 32) d = spec_crc32_fold c d := by
  unfold spec_crc32_fold
  rw [xor_mod_two_pow (c % 2 ^ 32), Nat.mod_mod_of_dvd c (dvd_refl (2 ^ 32)),
    ← xor_mod_two_pow]

lemma spec_table_crc_eq_from (records : List LutRecord) :
    spec_table_crc records = spec_table_crc_from 0xFFFFFFFF records := rfl

/-- The `ℤ`-valued running CRC of the code agrees with its ℕ mirror whenever
all `field2` values are non-negative. -/
lemma table_crc_acc_natCast (rs : List LutRecord) (c : Nat)
    (hpos : ∀ r ∈ rs, 0 ≤ r.field2) :
    table_crc_acc (c : ℤ) rs = ((table_crc_accN c rs : ℕ) : ℤ) := by
  induction rs generalizing c with
  | nil => simp [table_crc_acc, table_crc_accN]
  | cons r rs ih =>
    have hr : 0 ≤ r.field2 := hpos r (List.mem_cons_self r rs)
    have hrs : ∀ x ∈ rs, 0 ≤ x.field2 := fun x hx => hpos x (List.mem_cons_of_mem r hx)
    unfold table_crc_acc table_crc_accN
    simp only [List.foldl_cons]
    by_cases hinstr : r.instruction ≠ LUT_EOF_INSTR
    · rw [if_pos hinstr, if_pos hinstr]
      have hcalc : calc_crc (c : ℤ) r = ((crc32_calcN (crc32_calcN c r.instruction_and_field_1) r.field2.toNat : ℕ) : ℤ) := by
        unfold calc_crc
        conv_lhs => rw [← Int.toNat_of_nonneg hr]
        rw [crc32_calc_natCast, crc32_calc_natCast]
      rw [hcalc]
      exact ih _ hrs
    · rw [if_neg hinstr, if_neg hinstr]
      exact ih _ hrs

/-- The code's unmasked running CRC agrees with the spec's `u32` running CRC
modulo `2^32` (given the record invariant relating the cached
`instruction_and_field_1` to its defining formula). -/
lemma table_crc_accN_mod (rs : List LutRecord)
    (hinv : ∀ r ∈ rs, r.instruction_and_field_1 = spec_record_word1 r) (c : Nat) :
    table_crc_accN c rs % 2 ^ 32 = spec_table_crc_from (c % 2 ^ 32) rs := by
  induction rs generalizing c with
  | nil => simp [table_crc_accN, spec_table_crc_from]
  | cons r rs ih =>
    have hr : r.instruction_and_field_1 = spec_record_word1 r :=
      hinv r (List.mem_cons_self r rs)
    have hrs : ∀ x ∈ rs, x.instruction_and_field_1 = spec_record_word1 x :=
      fun x hx => hinv x (List.mem_cons_of_mem r hx)
    unfold table_crc_accN spec_table_crc_from
    simp only [List.foldl_cons]
    by_cases hinstr : r.instruction ≠ LUT_EOF_INSTR
    · rw [if_pos hinstr, if_pos hinstr]
      have hstep :
          crc32_calcN (crc32_calcN c r.instruction_and_field_1) r.field2.toNat % 2 ^ 32 =
            spec_crc32_fold (spec_crc32_fold (c % 2 ^ 32) (spec_record_word1 r))
              r.field2.toNat := by
        rw [crc32_calcN_mod, ← spec_crc32_fold_mod, crc32_calcN_mod, hr,
          spec_crc32_fold_mod]
      have hind := ih hrs (crc32_calcN (crc32_calcN c r.instruction_and_field_1) r.field2.toNat)
      unfold table_crc_accN spec_table_crc_from at hind
      rw [hind, hstep]
    · rw [if_neg hinstr, if_neg hinstr]
      exact ih hrs c

/-- Shape of `_add_crc_to_table` on a table of non-EOF records followed by a
single EOF record: the prefix is returned unchanged and the EOF record's
`field2_int` receives the running CRC over the prefix. -/
lemma add_crc_to_table_go_append (rs : List LutRecord) (eofRecord : LutRecord) (c : ℤ)
    (hrs : ∀ r ∈ rs, r.instruction ≠ LUT_EOF_INSTR)
    (heof : eofRecord.instruction = LUT_EOF_INSTR) :
    add_crc_to_table_go c (rs ++ [eofRecord]) =
      rs ++ [eofRecord.setField2Int (table_crc_acc c rs)] := by
  induction rs generalizing c with
  | nil =>
    simp only [List.nil_append, add_crc_to_table_go, table_crc_acc, List.foldl_nil]
    rw [if_neg (by simp [heof])]
  | cons r rs ih =>
    have hr : r.instruction ≠ LUT_EOF_INSTR := hrs r (List.mem_cons_self r rs)
    have hrs' : ∀ x ∈ rs, x.instruction ≠ LUT_EOF_INSTR :=
      fun x hx => hrs x (List.mem_cons_of_mem r hx)
    simp only [List.cons_append, add_crc_to_table_go, List.append_eq]
    rw [if_pos hr, ih (calc_crc c r) hrs']
    have hacc : table_crc_acc c (r :: rs) = table_crc_acc (calc_crc c r) rs := by
      unfold table_crc_acc
      simp only [List.foldl_cons]
      rw [if_pos hr]
    rw [hacc]

/-! ## Supporting lemmas for the claims -/

/-- Reassembling the four extracted bytes of a 32-bit value (as
`LutRecord.setField2Float` does for `_field2`) recovers the value. -/
lemma reassemble_bytes (bits : Nat) (h : bits < 2 ^ 32) :
    (bits &&& 0xFF) ||| (((bits >>> 8) &&& 0xFF) <<< 8) |||
      (((bits >>> 16) &&& 0xFF) <<< 16) ||| (((bits >>> 24) &&& 0xFF) <<< 24) = bits := by
  apply Nat.eq_of_testBit_eq
  intro i
  have h255 : (0xFF : Nat) = 2 ^ 8 - 1 := rfl
  simp only [Nat.testBit_or, Nat.testBit_shiftLeft, Nat.testBit_and, h255,
    Nat.testBit_two_pow_sub_one, Nat.testBit_shiftRight]
  rcases Nat.lt_or_ge i 8 with h8 | h8
  · have e1 : ¬ 8 ≤ i := by omega
    have e2 : ¬ 16 ≤ i := by omega
    have e3 : ¬ 24 ≤ i := by omega
    simp [e1, e2, e3, h8]
  · rcases Nat.lt_or_ge i 16 with h16 | h16
    · have e0 : ¬ i < 8 := by omega
      have e2 : ¬ 16 ≤ i := by omega
      have e3 : ¬ 24 ≤ i := by omega
      have e4 : i - 8 < 8 := by omega
      have e5 : 8 + (i - 8) = i := by omega
      simp [e0, e2, e3, e4, e5, h8]
    · rcases Nat.lt_or_ge i 24 with h24 | h24
      · have e0 : ¬ i < 8 := by omega
        have e1 : ¬ (i - 8) < 8 := by omega
        have e3 : ¬ 24 ≤ i := by omega
        have e4 : i - 16 < 8 := by omega
        have e5 : 16 + (i - 16) = i := by omega
        simp [e0, e1, e3, e4, e5, h16, Nat.le_of_lt h24]
      · rcases Nat.lt_or_ge i 32 with h32 | h32
        · have e0 : ¬ i < 8 := by omega
          have e1 : ¬ (i - 8) < 8 := by omega
          have e2 : ¬ (i - 16) < 8 := by omega
          have e4 : i - 24 < 8 := by omega
          have e5 : 24 + (i - 24) = i := by omega
          simp [e0, e1, e2, e4, e5, h24]
        · have e0 : ¬ i < 8 := by omega
          have e1 : ¬ (i - 8) < 8 := by omega
          have e2 : ¬ (i - 16) < 8 := by omega
          have e3 : ¬ (i - 24) < 8 := by omega
          have e6 : bits.testBit i = false :=
            Nat.testBit_lt_two_pow (lt_of_lt_of_le h (Nat.pow_le_pow_right (by omega) h32))
          simp [e0, e1, e2, e3, e6]

lemma natLog2Aux_eq (fuel : Nat) : ∀ n, n ≤ fuel → natLog2Aux fuel n = Nat.log2 n := by
  induction fuel with
  | zero =>
    intro n hn
    have h0 : n = 0 := Nat.le_zero.mp hn
    subst h0
    simp [natLog2Aux, Nat.log2]
  | succ fuel ih =>
    intro n hn
    rw [natLog2Aux, Nat.log2]
    by_cases h2 : n ≥ 2
    · rw [if_pos h2, if_pos h2, ih (n / 2)]
      omega
    · rw [if_neg h2, if_neg h2]

lemma natLog2_eq (n : Nat) : natLog2 n = Nat.log2 n :=
  natLog2Aux_eq n n (Nat.le_refl n)

/-- IEEE-754 binary32 bit patterns produced by `float32BitsOfRat` are 32-bit
values. -/
lemma float32BitsOfRat_lt (q : ℚ) (bits : Nat) (h : float32BitsOfRat q = some bits) :
    bits < 2 ^ 32 := by
  unfold float32BitsOfRat at h
  by_cases h0 : q = 0
  · rw [if_pos h0] at h
    simp only [Option.some.injEq] at h
    omega
  · rw [if_neg h0] at h
    simp only at h
    by_cases hd : (2 ^ 149) % q.den ≠ 0
    · rw [if_pos hd] at h
      exact absurd h (by simp)
    · rw [if_neg hd] at h
      have hsgn : (if q < 0 then (1 : ℕ) else 0) <<< 31 < 2 ^ 32 := by
        by_cases hq : q < 0
        · rw [if_pos hq]; decide
        · rw [if_neg hq]; decide
      have hmlt : q.num.natAbs * (2 ^ 149 / q.den) <
          2 ^ (natLog2 (q.num.natAbs * (2 ^ 149 / q.den)) + 1) := by
        rcases Nat.eq_zero_or_pos (q.num.natAbs * (2 ^ 149 / q.den)) with hz | hpos
        · rw [hz]
          exact Nat.pos_pow_of_pos _ (by omega)
        · rw [natLog2_eq, Nat.log2_eq_log_two]
          exact Nat.lt_pow_succ_log_self (by omega) _
      by_cases hL22 : natLog2 (q.num.natAbs * (2 ^ 149 / q.den)) ≤ 22
      · rw [if_pos hL22] at h
        simp only [Option.some.injEq] at h
        subst h
        refine Nat.or_lt_two_pow hsgn ?_
        exact lt_of_lt_of_le hmlt (Nat.pow_le_pow_right (by omega) (by omega))
      · rw [if_neg hL22] at h
        by_cases hL276 : natLog2 (q.num.natAbs * (2 ^ 149 / q.den)) ≤ 276
        · rw [if_pos hL276] at h
          by_cases hrem : q.num.natAbs * (2 ^ 149 / q.den) %
              2 ^ (natLog2 (q.num.natAbs * (2 ^ 149 / q.den)) - 23) = 0
          · rw [if_pos hrem] at h
            simp only [Option.some.injEq] at h
            subst h
            refine Nat.or_lt_two_pow (Nat.or_lt_two_pow hsgn ?_) ?_
            · have hsmall : natLog2 (q.num.natAbs * (2 ^ 149 / q.den)) - 22 < 2 ^ 8 := by
                omega
              calc (natLog2 (q.num.natAbs * (2 ^ 149 / q.den)) - 22) <<< 23
                  = (natLog2 (q.num.natAbs * (2 ^ 149 / q.den)) - 22) * 2 ^ 23 :=
                    Nat.shiftLeft_eq _ _
                _ < 2 ^ 8 * 2 ^ 23 := by
                    exact Nat.mul_lt_mul_of_lt_of_le hsmall (Nat.le_refl _) (by omega)
                _ ≤ 2 ^ 32 := by omega
            · have hdiv : (q.num.natAbs * (2 ^ 149 / q.den)) >>>
                  (natLog2 (q.num.natAbs * (2 ^ 149 / q.den)) - 23) < 2 ^ 24 := by
                rw [Nat.shiftRight_eq_div_pow]
                rw [Nat.div_lt_iff_lt_mul (Nat.pos_pow_of_pos _ (by omega))]
                calc q.num.natAbs * (2 ^ 149 / q.den)
                    < 2 ^ (natLog2 (q.num.natAbs * (2 ^ 149 / q.den)) + 1) := hmlt
                  _ ≤ 2 ^ 24 * 2 ^ (natLog2 (q.num.natAbs * (2 ^ 149 / q.den)) - 23) := by
                      rw [← Nat.pow_add]
                      exact Nat.pow_le_pow_right (by omega) (by omega)
              have hsub : (q.num.natAbs * (2 ^ 149 / q.den)) >>>
                  (natLog2 (q.num.natAbs * (2 ^ 149 / q.den)) - 23) - 2 ^ 23 < 2 ^ 24 := by
                omega
              exact lt_of_lt_of_le hsub (by omega)
          · rw [if_neg hrem] at h
            exact absurd h (by simp)
        · rw [if_neg hL276] at h
          exact absurd h (by simp)

/-- Model of `_enumerate_lut` can only raise an `IndexError` (short row); every other
exception inside it is swallowed by its `finally: return`. -/
lemma enumerate_lut_ne_titleError (line : List Char) :
    enumerate_lut line ≠ .error .titleError := by
  unfold enumerate_lut
  cases hsplit : splitSemi line with
  | nil => simp
  | cons a t =>
    cases t with
    | nil => simp
    | cons b t2 =>
      cases t2 with
      | nil => simp
      | cons c t3 => simp

/-- The row loop never raises the header `LutException`. -/
lemma parse_lut_rows_ne_titleError (rows : List (List Char)) :
    parse_lut_rows rows ≠ .error .titleError := by
  induction rows with
  | nil => simp [parse_lut_rows]
  | cons line rest ih =>
    unfold parse_lut_rows
    cases hline : enumerate_lut line with
    | ok record =>
      cases hrest : parse_lut_rows rest with
      | ok l => simp [Except.map]
      | error e =>
        simp only [Except.map]
        intro hc
        have he : e = LutParseError.titleError := Except.error.inj hc
        exact ih (by rw [hrest, he])
    | error e =>
      intro hc
      have he : e = LutParseError.titleError := Except.error.inj hc
      exact enumerate_lut_ne_titleError line (by rw [hline, he])

/-- Every packet sent by the retry loop carries the sequence number stamped by
the surrounding transaction (the loop itself never changes `seqNum`). -/
lemma transact_loop_sends_seq (recv : Nat → RecvOutcome) (seqNum : Nat)
    (te oe : TxError) (post : MeComPacket → Except TxError MeComPacket) :
    ∀ (trials : Nat) (tx rx : MeComPacket) (attempt : Nat) (sends : List MeComPacket),
      (∀ p ∈ sends, p.sequence_number = seqNum) →
      ∀ p ∈ (transact_loop recv seqNum tx rx te oe post trials attempt sends).2,
        p.sequence_number = seqNum := by
  intro trials
  induction trials with
  | zero =>
    intro tx rx attempt sends hsends
    simpa [transact_loop] using hsends
  | succ t ih =>
    intro tx rx attempt sends hsends
    rw [transact_loop]
    have hsends' : ∀ p ∈ sends ++ [{ tx with sequence_number := seqNum }],
        p.sequence_number = seqNum := by
      intro p hp
      rcases List.mem_append.mp hp with hmem | hmem
      · exact hsends p hmem
      · rw [List.mem_singleton.mp hmem]
    by_cases haddr : tx.address = some 255
    · rw [if_pos haddr]
      exact hsends'
    · rw [if_neg haddr]
      cases hr : recv attempt with
      | frame p => exact hsends'
      | timeout =>
        by_cases ht : t = 0
        · rw [if_pos ht]
          exact hsends'
        · rw [if_neg ht]
          exact ih _ rx (attempt + 1) _ hsends'
      | serverExc => exact hsends'
      | otherExc => exact hsends'

/-- The retry loop can only fail with the error values it is given (or the
`post` dead code's); in particular it never produces `NotConnected`. -/
lemma transact_loop_ne_notConnected (recv : Nat → RecvOutcome) (seqNum : Nat)
    (te oe : TxError) (post : MeComPacket → Except TxError MeComPacket)
    (hte : te ≠ .notConnected) (hoe : oe ≠ .notConnected)
    (hpost : ∀ rx, post rx ≠ .error .notConnected) :
    ∀ (trials : Nat) (tx rx : MeComPacket) (attempt : Nat) (sends : List MeComPacket),
      (transact_loop recv seqNum tx rx te oe post trials attempt sends).1 ≠
        .error .notConnected := by
  intro trials
  induction trials with
  | zero =>
    intro tx rx attempt sends
    simpa [transact_loop] using hpost rx
  | succ t ih =>
    intro tx rx attempt sends
    rw [transact_loop]
    by_cases haddr : tx.address = some 255
    · rw [if_pos haddr]
      simp
    · rw [if_neg haddr]
      cases hr : recv attempt with
      | frame p => simp
      | timeout =>
        by_cases ht : t = 0
        · rw [if_pos ht]
          intro hc
          exact hte (Except.error.inj hc)
        · rw [if_neg ht]
          exact ih _ rx (attempt + 1) _
      | serverExc => simp
      | otherExc =>
        intro hc
        exact hoe (Except.error.inj hc)

/-- The dead code after `local_query`'s loop only raises `GeneralException`. -/
lemma local_query_post_ne_notConnected (rx : MeComPacket) (seqNum : Nat)
    (addr : Option Nat) : local_query_post rx seqNum addr ≠ .error .notConnected := by
  unfold local_query_post
  split_ifs <;> simp

/-- The dead code after `local_set`'s loop only raises `GeneralException`. -/
lemma local_set_post_ne_notConnected (rx : MeComPacket) (seqNum : Nat)
    (addr : Option Nat) : local_set_post rx seqNum addr ≠ .error .notConnected := by
  unfold local_set_post
  split_ifs <;> simp

/-! ## The claims -/

/-- C1: the claim says a CSV data row with an unrecognized instruction, or a
recognized instruction with an invalid Field-1 token, makes the parse fail
with `InvalidInstructionField`.  In the code, `_enumerate_lut`'s
`finally: return record` swallows the `LutException` raised in both
situations, so parsing *succeeds* and appends a default-initialized record:
here the rows `FOO;0;0` (unknown instruction) and `TABLE_INFO;MID;0` (invalid
Field-1 token) each yield a record and no error. -/
theorem C1_swallowed_errors_yield_records :
    parse_lut_into_list
        ["Instruction;Field 1;Field 2\n".toList, "FOO;0;0\n".toList,
          "TABLE_INFO;MID;0\n".toList] =
      .ok [LutRecord.init, LutRecord.init] := by
  decide

/-- C2 (counterexample): on the specification's four-row sample CSV the
parser of `src/mecompyapi` yields 4 records, not 3 — this variant has no
`EOF` early-exit, so the `EOF;0;0` row itself is parsed and appended. -/
theorem C2_counterexample :
    (parse_lut_into_list lutSampleLines).map List.length = .ok 4 ∧ (4 : Nat) ≠ 3 := by
  constructor
  · decide
  · decide

/-- C2 (amended): the sample CSV parses to 4 records — the 3 data records
(with `field2` of the `SIN_RAMP_TO` row the float32 bit pattern of `25.0`)
plus a record for the `EOF` row — and `_add_crc_to_table` then overwrites the
4th (EOF) record's `field2` with the CRC accumulated over the first 3; no
extra record is appended.  The stored value is the unmasked CRC
`lutSampleCrc`, whose low 32 bits are the `u32` CRC of the spec. -/
theorem C2_sample_parse_and_crc :
    parse_lut_into_list lutSampleLines =
      .ok [lutSampleRecord1, lutSampleRecord2, lutSampleRecord3, lutSampleRecord4] ∧
    lutSampleRecord2.field2_float_bits = 1103626240 ∧
    lutSampleRecord4.instruction = LUT_EOF_INSTR ∧
    add_crc_to_table
        [lutSampleRecord1, lutSampleRecord2, lutSampleRecord3, lutSampleRecord4] =
      [lutSampleRecord1, lutSampleRecord2, lutSampleRecord3,
        lutSampleRecord4.setField2Int (lutSampleCrc : Int)] ∧
    lutSampleCrc % 2 ^ 32 =
      spec_table_crc [lutSampleRecord1, lutSampleRecord2, lutSampleRecord3] := by
  refine ⟨by decide, by decide, by decide, ?_, ?_⟩
  · have hn1 : lutSampleRecord1.instruction ≠ LUT_EOF_INSTR := by decide
    have hn2 : lutSampleRecord2.instruction ≠ LUT_EOF_INSTR := by decide
    have hn3 : lutSampleRecord3.instruction ≠ LUT_EOF_INSTR := by decide
    have hne4 : ¬ lutSampleRecord4.instruction ≠ LUT_EOF_INSTR := by decide
    have h1 : calc_crc 0xFFFFFFFF lutSampleRecord1 =
        (78085730967732246380756122457 : Int) := by decide
    have h2 : calc_crc (78085730967732246380756122457 : Int) lutSampleRecord2 =
        (1440427494970293226769734268860684084416946260447 : Int) := by decide
    have h3 : calc_crc (1440427494970293226769734268860684084416946260447 : Int)
        lutSampleRecord3 = (lutSampleCrc : Int) := by decide
    unfold add_crc_to_table
    rw [add_crc_to_table_go, if_pos hn1, h1,
      add_crc_to_table_go, if_pos hn2, h2,
      add_crc_to_table_go, if_pos hn3, h3,
      add_crc_to_table_go, if_neg hne4,
      add_crc_to_table_go]
  · have hmod : lutSampleCrc % 2 ^ 32 = 2783588506 := by decide
    have g1 : spec_crc32_fold (spec_crc32_fold 0xFFFFFFFF
        (spec_record_word1 lutSampleRecord1)) lutSampleRecord1.field2.toNat =
        1761917785 := by decide
    have g2 : spec_crc32_fold (spec_crc32_fold 1761917785
        (spec_record_word1 lutSampleRecord2)) lutSampleRecord2.field2.toNat =
        2246461919 := by decide
    have g3 : spec_crc32_fold (spec_crc32_fold 2246461919
        (spec_record_word1 lutSampleRecord3)) lutSampleRecord3.field2.toNat =
        2783588506 := by decide
    have hn1 : lutSampleRecord1.instruction ≠ LUT_EOF_INSTR := by decide
    have hn2 : lutSampleRecord2.instruction ≠ LUT_EOF_INSTR := by decide
    have hn3 : lutSampleRecord3.instruction ≠ LUT_EOF_INSTR := by decide
    rw [hmod]
    unfold spec_table_crc
    rw [List.foldl_cons, if_pos hn1, g1, List.foldl_cons, if_pos hn2, g2,
      List.foldl_cons, if_pos hn3, g3, List.foldl_nil]

/-- C3 (counterexample): the value stored into the EOF record's `field2` is
*not* the 32-bit `u32` CRC the claim describes: already for a single all-zero
`TABLE_INFO` record the code stores an unmasked integer `≥ 2^32` (the claim's
`u32` value is only its residue modulo `2^32`). -/
theorem C3_counterexample :
    (add_crc_to_table [lutSampleRecord1, lutSampleRecord4]).map LutRecord.field2 ≠
      [0, (spec_table_crc [lutSampleRecord1] : Int)] ∧
    ¬ ((add_crc_to_table [lutSampleRecord1, lutSampleRecord4]).getLastD
        LutRecord.init).field2 < 2 ^ 32 := by
  constructor
  · decide
  · decide

/-- C4: the claim says all four unsigned encoders zero-pad (2/4/8/16 chars)
and round-trip.  `add_uint64` uses the format string `"{:16X}"` *without* the
`0` flag, so Python pads with spaces: `encode_u64(1)` is 15 spaces followed by
`'1'`, and decoding it fails (`bytes.fromhex` rejects it) instead of returning
1 — while e.g. the 32-bit sibling zero-pads and round-trips. -/
theorem C4_uint64_space_padding_bug :
    add_uint64 [] 1 = List.replicate 15 ' ' ++ ['1'] ∧
    read_uint64 (add_uint64 [] 1) = none ∧
    add_uint32 [] 1 = "00000001".toList ∧
    read_uint32 (add_uint32 [] 1) = some 1 := by
  refine ⟨by decide, by decide, by decide, by decide⟩

/-- C8 (counterexample): the header check is a substring test
(`"…" not in lines[0]`), not an equality test: a first row *different from*
the literal header but containing it parses fine and produces records. -/
theorem C8_counterexample :
    parse_lut_into_list
        ["xInstruction;Field 1;Field 2\n".toList, "TABLE_INFO;START;0\n".toList] =
      .ok [LutRecord.init] ∧
    "xInstruction;Field 1;Field 2\n".toList ≠ lutHeader := by
  constructor
  · decide
  · decide

/-- C3 (amended): for a table of non-EOF records (with the setter-maintained
invariant `instruction_and_field_1 = instruction | f1b0<<8 | f1b1<<16 |
f1b2<<24` and non-negative `field2`, as for every record the claim's data
model describes) followed by one EOF record, `_add_crc_to_table` stores into
the EOF record's `field2` the claim's bit-serial recurrence computed over
Python's unbounded integers *without* any reduction modulo `2^32`; the `u32`
CRC the claim describes is exactly the stored value's residue modulo `2^32`. -/
theorem C3_table_crc_unmasked (rs : List LutRecord) (eofRecord : LutRecord)
    (hinv : ∀ r ∈ rs, r.instruction_and_field_1 = spec_record_word1 r)
    (hpos : ∀ r ∈ rs, 0 ≤ r.field2)
    (hni : ∀ r ∈ rs, r.instruction ≠ LUT_EOF_INSTR)
    (heof : eofRecord.instruction = LUT_EOF_INSTR) :
    add_crc_to_table (rs ++ [eofRecord]) =
      rs ++ [eofRecord.setField2Int (table_crc_acc 0xFFFFFFFF rs)] ∧
    table_crc_acc 0xFFFFFFFF rs % (2 ^ 32 : Int) = (spec_table_crc rs : Int) := by
  constructor
  · exact add_crc_to_table_go_append rs eofRecord 0xFFFFFFFF hni heof
  · have hcast : (0xFFFFFFFF : Int) = ((0xFFFFFFFF : Nat) : Int) := by norm_num
    rw [hcast, table_crc_acc_natCast rs 0xFFFFFFFF hpos]
    have hmod : ((table_crc_accN 0xFFFFFFFF rs : Nat) : Int) % (2 ^ 32 : Int) =
        ((table_crc_accN 0xFFFFFFFF rs % 2 ^ 32 : Nat) : Int) := by
      push_cast
      rfl
    rw [hmod, table_crc_accN_mod rs hinv 0xFFFFFFFF]
    norm_num [spec_table_crc_eq_from]

/-- C3 (witness): the amended theorem applied to the one-record sample table. -/
theorem C3_table_crc_unmasked_witness :
    (∀ r ∈ [lutSampleRecord1], r.instruction_and_field_1 = spec_record_word1 r) ∧
    (∀ r ∈ [lutSampleRecord1], 0 ≤ r.field2) ∧
    (∀ r ∈ [lutSampleRecord1], r.instruction ≠ LUT_EOF_INSTR) ∧
    lutSampleRecord4.instruction = LUT_EOF_INSTR ∧
    (add_crc_to_table ([lutSampleRecord1] ++ [lutSampleRecord4]) =
      [lutSampleRecord1] ++
        [lutSampleRecord4.setField2Int (table_crc_acc 0xFFFFFFFF [lutSampleRecord1])] ∧
    table_crc_acc 0xFFFFFFFF [lutSampleRecord1] % (2 ^ 32 : Int) =
      (spec_table_crc [lutSampleRecord1] : Int)) :=
  ⟨by decide, by decide, by decide, by decide,
    C3_table_crc_unmasked [lutSampleRecord1] lutSampleRecord4
      (by decide) (by decide) (by decide) (by decide)⟩

/-- C5: a non-broadcast `query` whose transport times out on every receive
performs exactly 3 sends — all carrying the same (once-incremented) sequence
number — swallows the first two timeouts, and fails with the timeout
`GeneralException` (setting `is_ready` to `False`). -/
theorem C5_query_three_timeouts (st : MeComQuerySet) (recv : Nat → RecvOutcome)
    (tx : MeComPacket) (htimeout : ∀ n, recv n = RecvOutcome.timeout)
    (haddr : tx.address.getD st.default_device_address ≠ 255) :
    (query st recv tx).1 = .error (.general ("Query failed: Timeout!".toList)) ∧
    (query st recv tx).2.2 =
      List.replicate 3
        { tx with address := some (tx.address.getD st.default_device_address),
                  sequence_number := st.sequence_number + 1 } ∧
    (query st recv tx).2.1.is_ready = false ∧
    (query st recv tx).2.1.sequence_number = st.sequence_number + 1 := by
  refine ⟨?_, ?_, ?_, ?_⟩ <;>
    · simp only [query, local_query, transact_loop, htimeout 0, htimeout 1, htimeout 2]
      simp [haddr]

/-- C5 (witness): the theorem at a concrete state, frame and transport. -/
theorem C5_query_three_timeouts_witness :
    (∀ n, timeoutRecv n = RecvOutcome.timeout) ∧
    sampleTxFrame.address.getD sampleQuerySet.default_device_address ≠ 255 ∧
    ((query sampleQuerySet timeoutRecv sampleTxFrame).1 =
        .error (.general ("Query failed: Timeout!".toList)) ∧
      (query sampleQuerySet timeoutRecv sampleTxFrame).2.2 =
        List.replicate 3
          { sampleTxFrame with
              address := some
                (sampleTxFrame.address.getD sampleQuerySet.default_device_address),
              sequence_number := sampleQuerySet.sequence_number + 1 } ∧
      (query sampleQuerySet timeoutRecv sampleTxFrame).2.1.is_ready = false ∧
      (query sampleQuerySet timeoutRecv sampleTxFrame).2.1.sequence_number =
        sampleQuerySet.sequence_number + 1) :=
  ⟨fun _ => rfl, by decide,
    C5_query_three_timeouts sampleQuerySet timeoutRecv sampleTxFrame
      (fun _ => rfl) (by decide)⟩

/-- C6: an 11-character (ACK-shaped) received line whose trailing 4-hex-char
CRC differs from the cached `last_crc` raises no error and leaves the result
packet's receive type `EMPTY` — it is never reported as an ACK. -/
theorem C6_stale_ack_stays_empty (calcCrc : List Char → Nat) (lastCrc : Nat)
    (s : List Char) (v : Nat) (hlen : s.length = 11)
    (hv : read_uint16 (pySlice s 7 11) = some v) (hne : v ≠ lastCrc) :
    decode_frame calcCrc lastCrc emptyRxPacket s = .ok emptyRxPacket ∧
    emptyRxPacket.receive_type = .EMPTY := by
  constructor
  · unfold decode_frame
    rw [if_pos hlen, hv]
    simp only [if_neg hne]
  · rfl

/-- C6 (witness): a concrete stale ACK line (embedded CRC `0x0000`, cached
`last_crc = 1`). -/
theorem C6_stale_ack_stays_empty_witness :
    sampleAckStream.length = 11 ∧
    read_uint16 (pySlice sampleAckStream 7 11) = some 0 ∧
    (0 : Nat) ≠ 1 ∧
    (decode_frame (fun _ => 0) 1 emptyRxPacket sampleAckStream = .ok emptyRxPacket ∧
      emptyRxPacket.receive_type = .EMPTY) :=
  ⟨by decide, by decide, by decide,
    C6_stale_ack_stays_empty (fun _ => 0) 1 sampleAckStream 0
      (by decide) (by decide) (by decide)⟩

/-- The state returned by `query` carries `local_query`'s state fields
(`is_ready` possibly cleared), and the same send log. -/
lemma query_projections (st : MeComQuerySet) (recv : Nat → RecvOutcome)
    (tx : MeComPacket) :
    (query st recv tx).2.1.sequence_number =
      (local_query st recv tx).2.1.sequence_number ∧
    (query st recv tx).2.2 = (local_query st recv tx).2.2 := by
  unfold query
  cases hres : (local_query st recv tx).1 with
  | ok p => simp [hres]
  | error e =>
    cases e with
    | general m => simp [hres]
    | server => simp [hres]
    | notConnected => simp [hres]

/-- Same as `query_projections`, for `set`. -/
lemma set_projections (st : MeComQuerySet) (recv : Nat → RecvOutcome)
    (tx : MeComPacket) :
    (MeComQuerySet.set st recv tx).2.1.sequence_number =
      (local_set st recv tx).2.1.sequence_number ∧
    (MeComQuerySet.set st recv tx).2.2 = (local_set st recv tx).2.2 := by
  unfold MeComQuerySet.set
  cases hres : (local_set st recv tx).1 with
  | ok p => simp [hres]
  | error e =>
    cases e with
    | general m => simp [hres]
    | server => simp [hres]
    | notConnected => simp [hres]

/-- Every packet `local_query` sends carries the once-incremented counter. -/
lemma local_query_sends_seq (st : MeComQuerySet) (recv : Nat → RecvOutcome)
    (tx : MeComPacket) :
    ∀ p ∈ (local_query st recv tx).2.2,
      p.sequence_number = st.sequence_number + 1 := by
  simp only [local_query]
  exact transact_loop_sends_seq _ _ _ _ _ 3 _ _ 0 [] (by simp)

/-- Every packet `local_set` sends carries the once-incremented counter. -/
lemma local_set_sends_seq (st : MeComQuerySet) (recv : Nat → RecvOutcome)
    (tx : MeComPacket) :
    ∀ p ∈ (local_set st recv tx).2.2,
      p.sequence_number = st.sequence_number + 1 := by
  simp only [local_set]
  exact transact_loop_sends_seq _ _ _ _ _ 3 _ _ 0 [] (by simp)

/-- C7: both `query` and `set` increment the sequence counter by exactly 1
before the first send, and every (retry) send of the same transaction carries
that same just-incremented number. -/
theorem C7_sequence_incremented_once (st : MeComQuerySet) (recv : Nat → RecvOutcome)
    (tx : MeComPacket) :
    (query st recv tx).2.1.sequence_number = st.sequence_number + 1 ∧
    (∀ p ∈ (query st recv tx).2.2, p.sequence_number = st.sequence_number + 1) ∧
    (MeComQuerySet.set st recv tx).2.1.sequence_number = st.sequence_number + 1 ∧
    (∀ p ∈ (MeComQuerySet.set st recv tx).2.2,
      p.sequence_number = st.sequence_number + 1) := by
  obtain ⟨hq1, hq2⟩ := query_projections st recv tx
  obtain ⟨hs1, hs2⟩ := set_projections st recv tx
  refine ⟨?_, ?_, ?_, ?_⟩
  · rw [hq1]; rfl
  · rw [hq2]; exact local_query_sends_seq st recv tx
  · rw [hs1]; rfl
  · rw [hs2]; exact local_set_sends_seq st recv tx

/-- Model of `local_query` never fails with `NotConnected`. -/
lemma local_query_ne_notConnected (st : MeComQuerySet) (recv : Nat → RecvOutcome)
    (tx : MeComPacket) :
    (local_query st recv tx).1 ≠ .error .notConnected := by
  simp only [local_query]
  exact transact_loop_ne_notConnected _ _ _ _ _ (by simp) (by simp)
    (fun rx => local_query_post_ne_notConnected rx _ _) 3 _ _ 0 []

/-- Model of `local_set` never fails with `NotConnected`. -/
lemma local_set_ne_notConnected (st : MeComQuerySet) (recv : Nat → RecvOutcome)
    (tx : MeComPacket) :
    (local_set st recv tx).1 ≠ .error .notConnected := by
  simp only [local_set]
  exact transact_loop_ne_notConnected _ _ _ _ _ (by simp) (by simp)
    (fun rx => local_set_post_ne_notConnected rx _ _) 3 _ _ 0 []

/-- C9: `check_if_connected` returns `True` for every state (its body is
literally `return True`), and consequently neither `query` nor `set` can ever
fail with `NotConnected`. -/
theorem C9_never_not_connected :
    (∀ st : MeComQuerySet, check_if_connected st = true) ∧
    ∀ (st : MeComQuerySet) (recv : Nat → RecvOutcome) (tx : MeComPacket),
      (query st recv tx).1 ≠ .error .notConnected ∧
      (MeComQuerySet.set st recv tx).1 ≠ .error .notConnected := by
  refine ⟨fun _ => rfl, fun st recv tx => ⟨?_, ?_⟩⟩
  · unfold query
    cases hres : (local_query st recv tx).1 with
    | ok p => simp [hres]
    | error e =>
      cases e with
      | general m => simp [hres]
      | server => simp [hres]
      | notConnected => exact absurd hres (local_query_ne_notConnected st recv tx)
  · unfold MeComQuerySet.set
    cases hres : (local_set st recv tx).1 with
    | ok p => simp [hres]
    | error e =>
      cases e with
      | general m => simp [hres]
      | server => simp [hres]
      | notConnected => exact absurd hres (local_set_ne_notConnected st recv tx)

/-- C8 (amended): with a non-empty line list, parsing fails with the header
`LutException` *iff* the first line does not *contain* the literal header
`Instruction;Field 1;Field 2` as a substring (the code tests
`"…" not in lines[0]`, not equality). -/
theorem C8_header_substring_check (first : List Char) (rest : List (List Char)) :
    parse_lut_into_list (first :: rest) = .error .titleError ↔
      containsSub first lutHeader = false := by
  unfold parse_lut_into_list
  by_cases hc : containsSub first lutHeader
  · have h1 : parse_lut_rows rest ≠ .error .titleError :=
      parse_lut_rows_ne_titleError rest
    simp [hc, h1]
  · have hcf : containsSub first lutHeader = false := by simpa using hc
    simp [hcf]

/-- C10: for a `LIN_RAMP_TIME` row the range guard
`10 >= f1_temp >= 16_777_216` is unsatisfiable, so `field1` is never set and
stays 0 whatever integer the Field-1 column holds, while `field2` still
receives the float32 bit pattern of the Field-2 column. -/
theorem C10_lin_ramp_time_field1_zero (field1Col field2Col : List Char)
    (n : Int) (bits : Nat)
    (hn : pyParseInt field1Col = some n)
    (hbits : pyFloat32Bits field2Col = some bits) :
    (∀ m : Int, ¬ (10 ≥ m ∧ m ≥ 16777216)) ∧
    (enumerate_lut_fields ("LIN_RAMP_TIME".toList) field1Col field2Col).instruction =
      LUT_LIN_RAMP_TIME_INSTR ∧
    (enumerate_lut_fields ("LIN_RAMP_TIME".toList) field1Col field2Col).field1 = 0 ∧
    (enumerate_lut_fields ("LIN_RAMP_TIME".toList) field1Col field2Col).field2_float_bits =
      bits ∧
    (enumerate_lut_fields ("LIN_RAMP_TIME".toList) field1Col field2Col).field2 =
      (bits : Int) := by
  have hbits' := hbits
  unfold pyFloat32Bits at hbits'
  obtain ⟨q, hq, hb⟩ := Option.bind_eq_some.mp hbits'
  have hlt : bits < 2 ^ 32 := float32BitsOfRat_lt q bits hb
  have hrec : enumerate_lut_fields ("LIN_RAMP_TIME".toList) field1Col field2Col =
      (LutRecord.init.setInstruction LUT_LIN_RAMP_TIME_INSTR).setField2Float bits := by
    unfold enumerate_lut_fields
    rw [if_neg (by decide), if_neg (by decide), if_neg (by decide), if_pos rfl, hn]
    simp only [hbits]
    rw [if_neg (by omega)]
  refine ⟨fun m => by omega, ?_, ?_, ?_, ?_⟩
  · rw [hrec]; rfl
  · rw [hrec]; rfl
  · rw [hrec]; rfl
  · rw [hrec]
    show (((bits &&& 0xFF) ||| (((bits >>> 8) &&& 0xFF) <<< 8) |||
        (((bits >>> 16) &&& 0xFF) <<< 16) ||| (((bits >>> 24) &&& 0xFF) <<< 24) : Nat) : Int) =
      (bits : Int)
    exact congrArg Int.ofNat (reassemble_bytes bits hlt)

/-- C10 (witness): the theorem at the concrete row `LIN_RAMP_TIME;5;2.0`
(`2.0` has float32 bit pattern `0x40000000`). -/
theorem C10_lin_ramp_time_field1_zero_witness :
    pyParseInt ("5".toList) = some 5 ∧
    pyFloat32Bits ("2.0".toList) = some 1073741824 ∧
    ((∀ m : Int, ¬ (10 ≥ m ∧ m ≥ 16777216)) ∧
      (enumerate_lut_fields ("LIN_RAMP_TIME".toList) ("5".toList) ("2.0".toList)).instruction =
        LUT_LIN_RAMP_TIME_INSTR ∧
      (enumerate_lut_fields ("LIN_RAMP_TIME".toList) ("5".toList) ("2.0".toList)).field1 = 0 ∧
      (enumerate_lut_fields ("LIN_RAMP_TIME".toList) ("5".toList) ("2.0".toList)).field2_float_bits =
        1073741824 ∧
      (enumerate_lut_fields ("LIN_RAMP_TIME".toList) ("5".toList) ("2.0".toList)).field2 =
        (1073741824 : Int)) :=
  ⟨by decide, by decide,
    C10_lin_ramp_time_field1_zero ("5".toList) ("2.0".toList) 5 1073741824
      (by decide) (by decide)⟩
